import Mathlib

/-!
Verification of the `eval-protocol` EvaluationRow schema helpers

A shallow embedding of `src/schema/evaluation-row.ts` (the generated
TypeScript implementation of the EvaluationRow data model), together with
proofs about its exported helpers.

JavaScript runtime values are modelled by the inductive type `Value`;
property access on `null`/`undefined` raises a `TypeError`, modelled in
the `Except` monad.  Each exported helper of the source file is
translated one-to-one, keeping its name.  JavaScript numbers are
modelled as integers with `NaN` kept as a separate constructor: no
helper in the source reads anything of a number beyond its truthiness
and its comparison with `0`, so fractional values never matter.
-/

namespace EvalProtocol

/-- A JavaScript runtime value, as far as the schema helpers can observe
it: `null`, `undefined`, booleans, numbers, `NaN`, strings, arrays and
plain objects (an object is its ordered own-property list; the lists we
build always have distinct keys, and property lookup takes the first
match). -/
inductive Value : Type where
  | vNull : Value
  | vUndefined : Value
  | vBool : Bool → Value
  | vNum : Int → Value
  | vNaN : Value
  | vStr : String → Value
  | vArr : List Value → Value
  | vObj : List (String × Value) → Value

open Value

/-- JavaScript truthiness: `null`, `undefined`, `false`, `0`, `NaN` and
the empty string are falsy; every array and object is truthy. -/
def truthy : Value → Bool
  | vNull => false
  | vUndefined => false
  | vBool b => b
  | vNum n => n != 0
  | vNaN => false
  | vStr s => s != ""
  | vArr _ => true
  | vObj _ => true

/-- JavaScript `typeof`: note `typeof null === "object"` and arrays are
`"object"` as well. -/
def typeofV : Value → String
  | vNull => "object"
  | vUndefined => "undefined"
  | vBool _ => "boolean"
  | vNum _ => "number"
  | vNaN => "number"
  | vStr _ => "string"
  | vArr _ => "object"
  | vObj _ => "object"

/-- The values `null` and `undefined` are the two nullish values: property access
on them throws, and `??` / `?.` test exactly for them. -/
def isNullish : Value → Bool
  | vNull => true
  | vUndefined => true
  | vBool _ => false
  | vNum _ => false
  | vNaN => false
  | vStr _ => false
  | vArr _ => false
  | vObj _ => false

/-- Strict comparison `v === undefined` (the source only ever compares against the
`undefined` literal with `!==`). -/
def isUndef : Value → Bool
  | vUndefined => true
  | vNull => false
  | vBool _ => false
  | vNum _ => false
  | vNaN => false
  | vStr _ => false
  | vArr _ => false
  | vObj _ => false

/-- Strict equality `v === s` against a string literal `s`: true exactly
when `v` is that string. -/
def strictEqStr (v : Value) (s : String) : Bool :=
  match v with
  | vStr t => t == s
  | _ => false

/-- Property read on a non-nullish value: objects look the key up among
their own properties, arrays and strings expose `length`, anything else
(and any missing property) reads as `undefined`. -/
def getProp : Value → String → Value
  | vObj fs, k => (fs.lookup k).getD vUndefined
  | vArr xs, k => if k = "length" then vNum xs.length else vUndefined
  | vStr s, k => if k = "length" then vNum s.length else vUndefined
  | _, _ => vUndefined

/-- The only runtime error the helpers can raise: a `TypeError`, from
reading a property of `null`/`undefined` or calling an array method on a
non-array. -/
inductive JsError : Type where
  | typeError : JsError

/-- Reading `v.k`: a plain (non-optional-chained) property access, which throws
a `TypeError` when `v` is nullish. -/
def read (v : Value) (k : String) : Except JsError Value :=
  if isNullish v then .error .typeError else .ok (getProp v k)

/-- Reading `v?.k`: an optional-chained property access, total. -/
def optChain (v : Value) (k : String) : Value :=
  if isNullish v then vUndefined else getProp v k

/-- JavaScript `x > 0` restricted to the values the helpers can meet:
true exactly on positive numbers.  (Full `ToNumber` coercion of
strings, booleans and arrays is not modelled; the only use below is on
the `length` property of a `step_outputs` value, and no property proved
here depends on a `length` that is not a number.) -/
def jsGtZero : Value → Bool
  | vNum n => 0 < n
  | _ => false

/-- The `in` operator / `Object.prototype.hasOwnProperty` on a plain
object: whether the key itself is present, regardless of its value. -/
def hasOwnKey (v : Value) (k : String) : Bool :=
  match v with
  | vObj fs => fs.any (fun p => p.1 == k)
  | _ => false

/-! Section: the helpers of `evaluation-row.ts`, translated one-to-one. -/

/-- The body of the `every` callback in `isEvaluationRow`, iterated over
the `messages` array:
`msg && typeof msg === 'object' && typeof msg.role === 'string'`.
A falsy element makes the callback falsy; `msg.role` is only read after
the truthiness guard, hence cannot throw there. -/
def everyValidMessage : List Value → Except JsError Bool
  | [] => pure true
  | msg :: rest =>
    if ¬ truthy msg then pure false
    else if typeofV msg ≠ "object" then pure false
    else do
      let role ← read msg "role"
      if typeofV role ≠ "string" then pure false
      else everyValidMessage rest

/-- Translation of `isEvaluationRow(obj)`: the `&&` chain returns `obj` itself when
`obj` is falsy, and otherwise a boolean.
```
return (
  obj &&
  typeof obj === 'object' &&
  Array.isArray(obj.messages) &&
  obj.messages.every((msg) =>
    msg && typeof msg === 'object' && typeof msg.role === 'string')
);
``` -/
def isEvaluationRow (obj : Value) : Except JsError Value :=
  if ¬ truthy obj then pure obj
  else if typeofV obj ≠ "object" then pure (vBool false)
  else do
    let msgs ← read obj "messages"
    match msgs with
    | vArr xs => do
      let b ← everyValidMessage xs
      pure (vBool b)
    | _ => pure (vBool false)

/-- Translation of `isTrajectoryEvaluation(row)`:
```
return (
  row.evaluation_result !== undefined &&
  row.evaluation_result.step_outputs !== undefined &&
  row.evaluation_result.step_outputs.length > 0
);
```
Short-circuiting `&&`: later property reads happen only when the
earlier conjuncts are true, exactly as modelled here. -/
def isTrajectoryEvaluation (row : Value) : Except JsError Bool := do
  let er ← read row "evaluation_result"
  if isUndef er then pure false
  else do
    let so ← read er "step_outputs"
    if isUndef so then pure false
    else do
      let len ← read so "length"
      pure (jsGtZero len)

/-- The call `array.filter(msg => msg.role === role)`: the callback reads
`msg.role`, which throws on a nullish element. -/
def filterByRole : List Value → String → Except JsError (List Value)
  | [], _ => pure []
  | msg :: rest, role => do
    let r ← read msg "role"
    let tail ← filterByRole rest role
    pure (if strictEqStr r role then msg :: tail else tail)

/-- Translation of `getAssistantMessages(row)`: `row.messages.filter(msg => msg.role ===
'assistant')`.  Reading `messages` throws on a nullish row, and calling
`.filter` throws when `messages` is not an array. -/
def getAssistantMessages (row : Value) : Except JsError (List Value) := do
  let msgs ← read row "messages"
  match msgs with
  | vArr xs => filterByRole xs "assistant"
  | _ => .error .typeError

/-- Translation of `getUserMessages(row)`: `row.messages.filter(msg => msg.role ===
'user')`. -/
def getUserMessages (row : Value) : Except JsError (List Value) := do
  let msgs ← read row "messages"
  match msgs with
  | vArr xs => filterByRole xs "user"
  | _ => .error .typeError

/-- Translation of `getConversationLength(row)`: `row.messages.length`. -/
def getConversationLength (row : Value) : Except JsError Value := do
  let msgs ← read row "messages"
  read msgs "length"

/-- Translation of `getInputMetadata(row, key, defaultValue)`:
`return row.input_metadata?.[key] ?? defaultValue;`
An omitted `defaultValue` is `undefined`. -/
def getInputMetadata (row : Value) (key : String) (defaultValue : Value) :
    Except JsError Value := do
  let im ← read row "input_metadata"
  let v := optChain im key
  pure (if isNullish v then defaultValue else v)

/-- Translation of `createEvaluationRow(messages, options?)`: builds the object literal
```
{ messages,
  tools: options?.tools,
  input_metadata: options?.inputMetadata,
  ground_truth: options?.groundTruth,
  evaluation_result: options?.evaluationResult }
```
An omitted `options` argument is `undefined`.  Total: the only property
reads are optional-chained. -/
def createEvaluationRow (messages : Value) (options : Value) : Value :=
  vObj [("messages", messages),
        ("tools", optChain options "tools"),
        ("input_metadata", optChain options "inputMetadata"),
        ("ground_truth", optChain options "groundTruth"),
        ("evaluation_result", optChain options "evaluationResult")]

/-- The result shape of `validateEvaluationRow`. -/
structure ValidationResult : Type where
  valid : Bool
  errors : List String
deriving DecidableEq, Repr

/-- The string `'EvaluationRow is null or undefined'`. -/
def nullError : String := "EvaluationRow is null or undefined"

/-- The string `'messages field is required and must be an array'`. -/
def requiredError : String := "messages field is required and must be an array"

/-- The string `'messages array cannot be empty'`. -/
def emptyError : String := "messages array cannot be empty"

/-- The template literal producing `messages[i] must be an object`. -/
def mustBeObjectError (index : Nat) : String :=
  "messages[" ++ toString index ++ "] must be an object"

/-- The template literal producing `messages[i].role must be a string`. -/
def roleMustBeStringError (index : Nat) : String :=
  "messages[" ++ toString index ++ "].role must be a string"

/-- The `forEach` loop of `validateEvaluationRow`, collecting the error
strings contributed by the message at each index:
```
row.messages.forEach((msg, index) => {
  if (!msg || typeof msg !== 'object') {
    errors.push(`messages[${index}] must be an object`);
  } else if (typeof msg.role !== 'string') {
    errors.push(`messages[${index}].role must be a string`);
  }
});
``` -/
def messageErrors : List Value → Nat → Except JsError (List String)
  | [], _ => pure []
  | msg :: rest, index => do
    let here ←
      if ¬ truthy msg ∨ typeofV msg ≠ "object" then pure [mustBeObjectError index]
      else do
        let role ← read msg "role"
        pure (if typeofV role ≠ "string" then [roleMustBeStringError index] else [])
    let tail ← messageErrors rest (index + 1)
    pure (here ++ tail)

/-- Translation of `validateEvaluationRow(row)`:
```
const errors: string[] = [];
if (!row) { errors.push('EvaluationRow is null or undefined');
            return { valid: false, errors }; }
if (!Array.isArray(row.messages)) {
  errors.push('messages field is required and must be an array');
} else if (row.messages.length === 0) {
  errors.push('messages array cannot be empty');
} else { /* the forEach loop */ }
return { valid: errors.length === 0, errors };
``` -/
def validateEvaluationRow (row : Value) : Except JsError ValidationResult :=
  if ¬ truthy row then pure ⟨false, [nullError]⟩
  else do
    let msgs ← read row "messages"
    match msgs with
    | vArr xs =>
      if xs.length = 0 then pure ⟨false, [emptyError]⟩
      else do
        let errs ← messageErrors xs 0
        pure ⟨errs.isEmpty, errs⟩
    | _ => pure ⟨false, [requiredError]⟩

/-! Section: the TypeScript interfaces of `evaluation-row.d.ts`, as
membership predicates on `Value`.

A required field must be present with a value of the stated shape; a
TypeScript optional field (`k?: T`) may be missing or hold `undefined`. -/

/-- A required interface field: present and of the stated shape. -/
def requiredField (fs : List (String × Value)) (k : String) (p : Value → Bool) : Bool :=
  match fs.lookup k with
  | some v => p v
  | none => false

/-- An optional interface field: missing, `undefined`, or of the stated
shape. -/
def optionalField (fs : List (String × Value)) (k : String) (p : Value → Bool) : Bool :=
  match fs.lookup k with
  | some v => isUndef v || p v
  | none => true

/-- TypeScript `string`. -/
def isStringV : Value → Bool
  | vStr _ => true
  | _ => false

/-- TypeScript `number` (including `NaN`). -/
def isNumberV : Value → Bool
  | vNum _ => true
  | vNaN => true
  | _ => false

/-- TypeScript `boolean`. -/
def isBoolV : Value → Bool
  | vBool _ => true
  | _ => false

/-- TypeScript `Record<string, any>`. -/
def isRecordV : Value → Bool
  | vObj _ => true
  | _ => false

/-- TypeScript `Array<T>` for an element shape `p`. -/
def isArrayOf (p : Value → Bool) : Value → Bool
  | vArr xs => xs.all p
  | _ => false

/-- TypeScript `Record<string, T>` for a value shape `p`. -/
def isRecordOf (p : Value → Bool) : Value → Bool
  | vObj fs => fs.all (fun kv => p kv.2)
  | _ => false

/-- The shape `{name: string; arguments: string}` (the `function` member of a tool
call, and the legacy `function_call` form). -/
def isFunctionSpec : Value → Bool
  | vObj fs =>
    requiredField fs "name" isStringV &&
    requiredField fs "arguments" isStringV
  | _ => false

/-- One entry of `Message.tool_calls`:
`{id: string; type: 'function'; function: {name, arguments}}`. -/
def isToolCall : Value → Bool
  | vObj fs =>
    requiredField fs "id" isStringV &&
    requiredField fs "type" (fun v => strictEqStr v "function") &&
    requiredField fs "function" isFunctionSpec
  | _ => false

/-- The `Message` interface. -/
def isMessage : Value → Bool
  | vObj fs =>
    requiredField fs "role" isStringV &&
    optionalField fs "content" isStringV &&
    optionalField fs "name" isStringV &&
    optionalField fs "tool_call_id" isStringV &&
    optionalField fs "tool_calls" (isArrayOf isToolCall) &&
    optionalField fs "function_call" isFunctionSpec
  | _ => false

/-- The `MetricResult` interface. -/
def isMetricResult : Value → Bool
  | vObj fs =>
    requiredField fs "is_score_valid" isBoolV &&
    requiredField fs "score" isNumberV &&
    requiredField fs "reason" isStringV
  | _ => false

/-- The `StepOutput` interface. -/
def isStepOutput : Value → Bool
  | vObj fs =>
    requiredField fs "step_index" (fun v => isNumberV v || isStringV v) &&
    requiredField fs "base_reward" isNumberV &&
    optionalField fs "terminated" isBoolV &&
    optionalField fs "control_plane_info" isRecordV &&
    optionalField fs "metrics" isRecordV &&
    optionalField fs "reason" isStringV
  | _ => false

/-- The `EvaluateResult` interface. -/
def isEvaluateResult : Value → Bool
  | vObj fs =>
    requiredField fs "score" isNumberV &&
    optionalField fs "is_score_valid" isBoolV &&
    optionalField fs "reason" isStringV &&
    optionalField fs "metrics" (isRecordOf isMetricResult) &&
    optionalField fs "step_outputs" (isArrayOf isStepOutput) &&
    optionalField fs "error" isStringV &&
    optionalField fs "trajectory_info" isRecordV &&
    optionalField fs "final_control_plane_info" isRecordV
  | _ => false

/-- The `EvaluationRow` interface: a value is a well-typed row exactly
when it inhabits the declared TypeScript type. -/
def WellTypedRow : Value → Bool
  | vObj fs =>
    requiredField fs "messages" (isArrayOf isMessage) &&
    optionalField fs "tools" (isArrayOf isRecordV) &&
    optionalField fs "input_metadata" isRecordV &&
    optionalField fs "ground_truth" isStringV &&
    optionalField fs "evaluation_result" isEvaluateResult
  | _ => false

/-- Spec-side notion of a *present* field: the object carries the key
with a non-`undefined` value (an optional TypeScript field holding
`undefined` is indistinguishable from a missing one to every reader in
the source, which only ever tests `!== undefined`). -/
def presentField (v : Value) (k : String) : Option Value :=
  match v with
  | vObj fs =>
    match fs.lookup k with
    | some w => if isUndef w then none else some w
    | none => none
  | _ => none

/-! Section: JSON serialization.

`JSON.parse (JSON.stringify v)` for the values modelled here: `NaN`
serializes as `null`, `undefined`-valued object properties are dropped,
`undefined` array elements become `null`, and a top-level `undefined`
produces no JSON text at all (`none`).  Parsing the produced text gives
back exactly the written JSON value, so the round trip is the
normalization below. -/

mutual

/-- Computes `JSON.parse (JSON.stringify v)`; `none` when `v` is `undefined`,
which `JSON.stringify` does not serialize. -/
def toJsonValue : Value → Option Value
  | vNull => some vNull
  | vUndefined => none
  | vBool b => some (vBool b)
  | vNum n => some (vNum n)
  | vNaN => some vNull
  | vStr s => some (vStr s)
  | vArr xs => some (vArr (toJsonArr xs))
  | vObj fs => some (vObj (toJsonObj fs))

/-- Array elements: unserializable elements become `null`. -/
def toJsonArr : List Value → List Value
  | [] => []
  | x :: xs => (toJsonValue x).getD vNull :: toJsonArr xs

/-- Object properties: unserializable values are dropped with their key. -/
def toJsonObj : List (String × Value) → List (String × Value)
  | [] => []
  | (k, v) :: fs =>
    match toJsonValue v with
    | some j => (k, j) :: toJsonObj fs
    | none => toJsonObj fs

end

/-- The error strings contributed by the message at one index, as the
spec states them. -/
def messageErrorAt (index : Nat) (msg : Value) : List String :=
  if ¬ truthy msg ∨ typeofV msg ≠ "object" then [mustBeObjectError index]
  else if typeofV (getProp msg "role") ≠ "string" then [roleMustBeStringError index]
  else []

/-- The `forEach` loop as a pure accumulation. -/
def messageErrorsP : List Value → Nat → List String
  | [], _ => []
  | msg :: rest, index => messageErrorAt index msg ++ messageErrorsP rest (index + 1)

/-- The validator `validateEvaluationRow` as a pure function. -/
def validateB (row : Value) : ValidationResult :=
  if ¬ truthy row then ⟨false, [nullError]⟩
  else
    match getProp row "messages" with
    | vArr xs =>
      if xs.length = 0 then ⟨false, [emptyError]⟩
      else ⟨(messageErrorsP xs 0).isEmpty, messageErrorsP xs 0⟩
    | _ => ⟨false, [requiredError]⟩

/-- The `every` callback of `isEvaluationRow`, as a pure predicate on one
message. -/
def validMessageB (msg : Value) : Bool :=
  truthy msg && decide (typeofV msg = "object") &&
    decide (typeofV (getProp msg "role") = "string")

/-- The type guard `isEvaluationRow` as a pure function. -/
def isEvaluationRowB (obj : Value) : Value :=
  if ¬ truthy obj then obj
  else if typeofV obj ≠ "object" then vBool false
  else
    match getProp obj "messages" with
    | vArr xs => vBool (xs.all validMessageB)
    | _ => vBool false

/-! Section: pure characterizations.

Each monadic helper either is total or throws only on inputs outside
the declared TypeScript type.  The lemmas here compute the helpers into
pure counterparts wherever the source's guards make the property reads
safe. -/

@[simp] theorem ok_bind {α β : Type} (a : α) (f : α → Except JsError β) :
    (Except.ok a : Except JsError α) >>= f = f a := rfl

@[simp] theorem pure_eq_ok {α : Type} (a : α) :
    (pure a : Except JsError α) = .ok a := rfl

theorem truthy_not_nullish {v : Value} (h : truthy v = true) : isNullish v = false := by
  cases v <;> simp_all [truthy, isNullish]

theorem read_ok {v : Value} (k : String) (h : isNullish v = false) :
    read v k = .ok (getProp v k) := by
  simp [read, h]

theorem messageErrors_eq : ∀ (xs : List Value) (index : Nat),
    messageErrors xs index = .ok (messageErrorsP xs index)
  | [], _ => rfl
  | msg :: rest, index => by
    have ih := messageErrors_eq rest (index + 1)
    by_cases hc : truthy msg = false ∨ ¬ typeofV msg = "object"
    · simp [messageErrors, messageErrorsP, messageErrorAt, hc, ih]
    · push_neg at hc
      have h1 : truthy msg = true := by
        cases hb : truthy msg
        · exact absurd hb hc.1
        · rfl
      have hn : isNullish msg = false := truthy_not_nullish h1
      simp [messageErrors, messageErrorsP, messageErrorAt, h1, hc.2, read, hn, ih]

theorem validateEvaluationRow_eq (row : Value) :
    validateEvaluationRow row = .ok (validateB row) := by
  by_cases h : truthy row = true
  · have hn : isNullish row = false := truthy_not_nullish h
    unfold validateEvaluationRow validateB
    simp only [h, not_true_eq_false, if_false, read, hn, Bool.false_eq_true, ok_bind,
      pure_eq_ok]
    cases hm : getProp row "messages" <;> simp [messageErrors_eq]
    exact (apply_ite Except.ok _ _ _).symm
  · simp [validateEvaluationRow, validateB, h]

theorem everyValidMessage_eq : ∀ xs : List Value,
    everyValidMessage xs = .ok (xs.all validMessageB)
  | [] => rfl
  | msg :: rest => by
    have ih := everyValidMessage_eq rest
    by_cases h1 : truthy msg = true
    · have hn : isNullish msg = false := truthy_not_nullish h1
      by_cases h2 : typeofV msg = "object"
      · simp [everyValidMessage, validMessageB, h1, h2, read, hn, ih, List.all_cons]
        by_cases h3 : typeofV (getProp msg "role") = "string" <;> simp [h3, ih]
      · simp [everyValidMessage, validMessageB, h1, h2, List.all_cons]
    · simp [everyValidMessage, validMessageB, h1, List.all_cons]

theorem isEvaluationRow_eq (obj : Value) :
    isEvaluationRow obj = .ok (isEvaluationRowB obj) := by
  by_cases h : truthy obj = true
  · have hn : isNullish obj = false := truthy_not_nullish h
    by_cases h2 : typeofV obj = "object"
    · unfold isEvaluationRow isEvaluationRowB
      simp only [h, not_true_eq_false, if_false, h2, ne_eq, not_true_eq_false,
        read, hn, Bool.false_eq_true]
      cases hm : getProp obj "messages" <;> simp [hm, everyValidMessage_eq]
    · simp [isEvaluationRow, isEvaluationRowB, h, h2]
  · simp [isEvaluationRow, isEvaluationRowB, h]

/-! Section: structural lemmas. -/

/-- A value whose `messages` property is an array must be a plain
object: arrays, strings and the other primitives only ever expose
`length`, and nullish values have no readable properties at all. -/
theorem eq_vObj_of_getProp_messages_arr {v : Value} {xs : List Value}
    (h : getProp v "messages" = vArr xs) :
    ∃ fs, v = vObj fs ∧ fs.lookup "messages" = some (vArr xs) := by
  cases v with
  | vObj fs =>
    refine ⟨fs, rfl, ?_⟩
    cases hl : fs.lookup "messages" with
    | none => rw [getProp, hl] at h; cases h
    | some w => rw [getProp, hl] at h; simp at h; rw [h]
  | vArr ys => rw [getProp, if_neg (by decide)] at h; cases h
  | vStr s => rw [getProp, if_neg (by decide)] at h; cases h
  | vNull => cases h
  | vUndefined => cases h
  | vBool b => cases h
  | vNum n => cases h
  | vNaN => cases h

/-- A well-typed `Message` is a truthy object whose `role` reads as a
string, so it passes the `every` callback of `isEvaluationRow`. -/
theorem validMessageB_of_isMessage {m : Value} (h : isMessage m = true) :
    validMessageB m = true := by
  cases m with
  | vObj gs =>
    simp only [isMessage, Bool.and_eq_true] at h
    obtain ⟨⟨⟨⟨⟨hrole, _⟩, _⟩, _⟩, _⟩, _⟩ := h
    rw [requiredField] at hrole
    cases hl : gs.lookup "role" with
    | none => rw [hl] at hrole; cases hrole
    | some v =>
      rw [hl] at hrole
      cases v <;> simp [isStringV] at hrole
      simp [validMessageB, truthy, typeofV, getProp, hl]
  | vNull => simp [isMessage] at h
  | vUndefined => simp [isMessage] at h
  | vBool b => simp [isMessage] at h
  | vNum n => simp [isMessage] at h
  | vNaN => simp [isMessage] at h
  | vStr s => simp [isMessage] at h
  | vArr ys => simp [isMessage] at h

/-- A well-typed message never contributes an error to the `forEach`
loop of `validateEvaluationRow`. -/
theorem messageErrorAt_eq_nil_of_validMessageB {m : Value} (index : Nat)
    (h : validMessageB m = true) : messageErrorAt index m = [] := by
  simp only [validMessageB, Bool.and_eq_true, decide_eq_true_eq] at h
  simp [messageErrorAt, h.1.1, h.1.2, h.2]

/-- The converse: an error-free message passes the `every` callback. -/
theorem validMessageB_of_messageErrorAt_eq_nil {m : Value} {index : Nat}
    (h : messageErrorAt index m = []) : validMessageB m = true := by
  by_cases hc : ¬ truthy m = true ∨ typeofV m ≠ "object"
  · rw [messageErrorAt, if_pos hc] at h; cases h
  · push_neg at hc
    rw [messageErrorAt, if_neg (by push_neg; exact hc)] at h
    by_cases hr : typeofV (getProp m "role") ≠ "string"
    · rw [if_pos hr] at h; cases h
    · push_neg at hr
      simp [validMessageB, hc.1, hc.2, hr]

/-- The `forEach` loop reports no error exactly when every message
passes the `every` callback of `isEvaluationRow`. -/
theorem messageErrorsP_eq_nil_iff : ∀ (xs : List Value) (index : Nat),
    (messageErrorsP xs index = [] ↔ xs.all validMessageB = true)
  | [], _ => by simp [messageErrorsP]
  | msg :: rest, index => by
    rw [messageErrorsP, List.all_cons, List.append_eq_nil]
    constructor
    · rintro ⟨h1, h2⟩
      simp [validMessageB_of_messageErrorAt_eq_nil h1,
        (messageErrorsP_eq_nil_iff rest (index + 1)).1 h2]
    · intro h
      rw [Bool.and_eq_true] at h
      exact ⟨messageErrorAt_eq_nil_of_validMessageB index h.1,
        (messageErrorsP_eq_nil_iff rest (index + 1)).2 h.2⟩

/-- The `forEach` loop, written as the concatenation over the indexed
messages of each one's contribution: errors appear in ascending index
order and no index is skipped. -/
theorem messageErrorsP_eq_flatMap : ∀ (xs : List Value) (index : Nat),
    messageErrorsP xs index =
      (xs.enumFrom index).flatMap (fun p => messageErrorAt p.1 p.2)
  | [], _ => rfl
  | msg :: rest, index => by
    rw [messageErrorsP, List.enumFrom, List.flatMap_cons,
      messageErrorsP_eq_flatMap rest (index + 1)]

/-- The filter `array.filter(msg => msg.role === role)` computed, given that no
element is nullish (so that reading `msg.role` cannot throw). -/
theorem filterByRole_eq {xs : List Value} (role : String)
    (h : ∀ m ∈ xs, isNullish m = false) :
    filterByRole xs role =
      .ok (xs.filter fun m => strictEqStr (getProp m "role") role) := by
  induction xs with
  | nil => rfl
  | cons m ms ih =>
    have hm : isNullish m = false := h m (by simp)
    have ih' := ih (fun x hx => h x (by simp [hx]))
    rw [filterByRole, read, if_neg (by simp [hm]), ok_bind, ih', ok_bind,
      List.filter_cons]
    by_cases hr : strictEqStr (getProp m "role") role = true <;> simp [hr]

theorem isUndef_eq {v : Value} (h : isUndef v = true) : v = vUndefined := by
  cases v <;> first | rfl | simp [isUndef] at h

theorem isArrayOf_arr {p : Value → Bool} {v : Value} (h : isArrayOf p v = true) :
    ∃ xs, v = vArr xs ∧ ∀ m ∈ xs, p m = true := by
  cases v <;> simp [isArrayOf] at h
  case vArr xs => exact ⟨xs, rfl, h⟩

theorem isEvaluateResult_obj {v : Value} (h : isEvaluateResult v = true) :
    ∃ gs, v = vObj gs := by
  cases v <;> simp only [isEvaluateResult] at h <;> first | cases h | exact ⟨_, rfl⟩

/-- Destructuring a well-typed row: it is an object whose `messages`
property is an array of well-typed messages. -/
theorem wt_row_dest {row : Value} (h : WellTypedRow row = true) :
    ∃ fs xs, row = vObj fs ∧ fs.lookup "messages" = some (vArr xs) ∧
      ∀ m ∈ xs, isMessage m = true := by
  cases row
  case vObj fs =>
    simp only [WellTypedRow, Bool.and_eq_true] at h
    obtain ⟨⟨⟨⟨hm, _⟩, _⟩, _⟩, _⟩ := h
    rw [requiredField] at hm
    cases hl : fs.lookup "messages" with
    | none => simp [hl] at hm
    | some v =>
      simp only [hl] at hm
      obtain ⟨xs, rfl, hall⟩ := isArrayOf_arr hm
      exact ⟨fs, xs, rfl, hl, hall⟩
  all_goals simp [WellTypedRow] at h

/-- In a well-typed row the `evaluation_result` field is missing,
`undefined`, or a well-typed `EvaluateResult` object. -/
theorem wt_er_dest {fs : List (String × Value)}
    (h : WellTypedRow (vObj fs) = true) :
    fs.lookup "evaluation_result" = none ∨
      fs.lookup "evaluation_result" = some vUndefined ∨
      ∃ gs, fs.lookup "evaluation_result" = some (vObj gs) ∧
        isEvaluateResult (vObj gs) = true := by
  simp only [WellTypedRow, Bool.and_eq_true] at h
  obtain ⟨⟨⟨⟨_, _⟩, _⟩, _⟩, he⟩ := h
  rw [optionalField] at he
  cases hl : fs.lookup "evaluation_result" with
  | none => exact Or.inl rfl
  | some v =>
    simp only [hl, Bool.or_eq_true] at he
    rcases he with hu | hr
    · rw [isUndef_eq hu]
      exact Or.inr (Or.inl rfl)
    · obtain ⟨gs, rfl⟩ := isEvaluateResult_obj hr
      exact Or.inr (Or.inr ⟨gs, rfl, hr⟩)

/-- In a well-typed `EvaluateResult` the `step_outputs` field is
missing, `undefined`, or an array. -/
theorem er_so_dest {gs : List (String × Value)}
    (h : isEvaluateResult (vObj gs) = true) :
    gs.lookup "step_outputs" = none ∨
      gs.lookup "step_outputs" = some vUndefined ∨
      ∃ xs, gs.lookup "step_outputs" = some (vArr xs) := by
  simp only [isEvaluateResult, Bool.and_eq_true] at h
  obtain ⟨⟨⟨⟨⟨⟨⟨_, _⟩, _⟩, _⟩, hso⟩, _⟩, _⟩, _⟩ := h
  rw [optionalField] at hso
  cases hl : gs.lookup "step_outputs" with
  | none => exact Or.inl rfl
  | some v =>
    simp only [hl, Bool.or_eq_true] at hso
    rcases hso with hu | hr
    · rw [isUndef_eq hu]
      exact Or.inr (Or.inl rfl)
    · obtain ⟨xs, rfl, -⟩ := isArrayOf_arr hr
      exact Or.inr (Or.inr ⟨xs, rfl⟩)

/-- A well-typed message is an object, hence not nullish. -/
theorem isMessage_not_nullish {m : Value} (h : isMessage m = true) :
    isNullish m = false := by
  cases m <;> first | rfl | simp [isMessage] at h

/-- Behavior of `isTrajectoryEvaluation` on a well-typed row: it returns normally,
and returns `true` exactly when `evaluation_result` is present, its
`step_outputs` is present, and that array is non-empty. -/
theorem isTrajectoryEvaluation_spec {row : Value} (h : WellTypedRow row = true) :
    ∃ b, isTrajectoryEvaluation row = .ok b ∧
      (b = true ↔ ∃ er xs, presentField row "evaluation_result" = some er ∧
        presentField er "step_outputs" = some (vArr xs) ∧ 0 < xs.length) := by
  obtain ⟨fs, ms, rfl, hm, hmsg⟩ := wt_row_dest h
  rcases wt_er_dest h with hl | hl | ⟨gs, hl, hwt⟩
  · exact ⟨false, by simp [isTrajectoryEvaluation, read, isNullish, getProp, hl, isUndef],
      by simp [presentField, hl]⟩
  · exact ⟨false, by simp [isTrajectoryEvaluation, read, isNullish, getProp, hl, isUndef],
      by simp [presentField, hl]⟩
  · rcases er_so_dest hwt with hso | hso | ⟨xs, hso⟩
    · exact ⟨false,
        by simp [isTrajectoryEvaluation, read, isNullish, getProp, hl, hso, isUndef],
        by simp [presentField, hl, hso, isUndef]⟩
    · exact ⟨false,
        by simp [isTrajectoryEvaluation, read, isNullish, getProp, hl, hso, isUndef],
        by simp [presentField, hl, hso, isUndef]⟩
    · refine ⟨decide (0 < (xs.length : Int)), ?_, ?_⟩
      · simp [isTrajectoryEvaluation, read, isNullish, getProp, hl, hso, isUndef, jsGtZero]
      · simp [presentField, hl, hso, isUndef, Int.natCast_pos]

/-- Behavior of `getAssistantMessages` and `getUserMessages` on a well-typed row:
both return normally, and each returns the filter of `messages` keeping
exactly the elements whose `role` is the wanted string, in order. -/
theorem messagesByRole_spec {row : Value} (h : WellTypedRow row = true) :
    ∃ xs, getProp row "messages" = vArr xs ∧
      getAssistantMessages row =
        .ok (xs.filter fun m => strictEqStr (getProp m "role") "assistant") ∧
      getUserMessages row =
        .ok (xs.filter fun m => strictEqStr (getProp m "role") "user") := by
  obtain ⟨fs, xs, rfl, hm, hmsg⟩ := wt_row_dest h
  have hnn : ∀ m ∈ xs, isNullish m = false := fun m hmem =>
    isMessage_not_nullish (hmsg m hmem)
  have hget : getProp (vObj fs) "messages" = vArr xs := by simp [getProp, hm]
  refine ⟨xs, hget, ?_, ?_⟩ <;>
    simp [getAssistantMessages, getUserMessages, read, isNullish, hget,
      filterByRole_eq _ hnn]

/-- Messages with different roles are different values, so the
`assistant` filter and the `user` filter can share no element. -/
theorem filter_roles_disjoint (xs : List Value) {m : Value}
    (h1 : m ∈ xs.filter fun m => strictEqStr (getProp m "role") "assistant") :
    m ∉ xs.filter fun m => strictEqStr (getProp m "role") "user" := by
  intro h2
  have p1 := List.of_mem_filter h1
  have p2 := List.of_mem_filter h2
  cases hv : getProp m "role" <;> rw [hv] at p1 p2 <;> simp [strictEqStr] at p1 p2
  subst p1
  exact absurd p2 (by decide)

/-- Behavior of `getConversationLength` on a well-typed row: the length of
the `messages` array. -/
theorem getConversationLength_spec {row : Value} (h : WellTypedRow row = true) :
    ∃ xs, getProp row "messages" = vArr xs ∧
      getConversationLength row = .ok (vNum xs.length) := by
  obtain ⟨fs, xs, rfl, hm, -⟩ := wt_row_dest h
  have hget : getProp (vObj fs) "messages" = vArr xs := by simp [getProp, hm]
  exact ⟨xs, hget, by simp [getConversationLength, read, isNullish, getProp, hm]⟩

/-- Behavior of `getInputMetadata` computed on any non-nullish row. -/
theorem getInputMetadata_eq {row : Value} (key : String) (d : Value)
    (h : isNullish row = false) :
    getInputMetadata row key d =
      .ok (if isNullish (optChain (getProp row "input_metadata") key) then d
           else optChain (getProp row "input_metadata") key) := by
  simp [getInputMetadata, read, h]

/-! Section: JSON round-trip lemmas. -/

theorem toJsonArr_length : ∀ xs : List Value, (toJsonArr xs).length = xs.length
  | [] => rfl
  | x :: xs => by
    rw [toJsonArr, List.length_cons, List.length_cons, toJsonArr_length xs]

/-- Serialization keeps a non-`undefined` property, mapped to its
serialized value, under the same key. -/
theorem lookup_toJsonObj : ∀ (fs : List (String × Value)) {k : String} {v j : Value},
    fs.lookup k = some v → toJsonValue v = some j → (toJsonObj fs).lookup k = some j
  | [], _, _, _, hl, _ => by cases hl
  | (k1, v1) :: fs, k, v, j, hl, hj => by
    by_cases hk : k == k1
    · simp only [List.lookup, hk] at hl
      obtain rfl : v1 = v := by injection hl
      rw [toJsonObj, hj]
      simp [List.lookup, hk]
    · simp only [List.lookup, hk] at hl
      rw [toJsonObj]
      cases htj : toJsonValue v1 with
      | some j1 => simp [List.lookup, hk, lookup_toJsonObj fs hl hj]
      | none => exact lookup_toJsonObj fs hl hj

/-- A message passing the structural check is an object carrying a
string `role`. -/
theorem validMessageB_dest {m : Value} (h : validMessageB m = true) :
    ∃ gs s, m = vObj gs ∧ gs.lookup "role" = some (vStr s) := by
  simp only [validMessageB, Bool.and_eq_true, decide_eq_true_eq] at h
  obtain ⟨⟨h1, h2⟩, h3⟩ := h
  cases m with
  | vObj gs =>
    cases hl : gs.lookup "role" with
    | none =>
      rw [getProp, hl] at h3
      exact absurd h3 (by decide)
    | some r =>
      rw [getProp, hl] at h3
      cases r <;> simp only [Option.getD_some, typeofV] at h3 <;>
        first
          | exact absurd h3 (by decide)
          | exact ⟨gs, _, rfl, hl⟩
  | vArr ys =>
    rw [getProp, if_neg (by decide)] at h3
    exact absurd h3 (by decide)
  | vNull => exact absurd h1 (by decide)
  | vUndefined => exact absurd h2 (by decide)
  | vBool b => simp [typeofV] at h2
  | vNum n => simp [typeofV] at h2
  | vNaN => exact absurd h2 (by decide)
  | vStr s => simp [typeofV] at h2

/-- Serialization preserves the structural validity of a message. -/
theorem validMessageB_toJson {m : Value} (h : validMessageB m = true) :
    validMessageB ((toJsonValue m).getD vNull) = true := by
  obtain ⟨gs, s, rfl, hl⟩ := validMessageB_dest h
  have hrt : (toJsonObj gs).lookup "role" = some (vStr s) :=
    lookup_toJsonObj gs hl rfl
  simp [toJsonValue, validMessageB, truthy, typeofV, getProp, hrt]

/-- Serialization preserves the structural validity of every message of
an array. -/
theorem toJsonArr_all_valid : ∀ {xs : List Value},
    (∀ m ∈ xs, validMessageB m = true) →
    ∀ m ∈ toJsonArr xs, validMessageB m = true
  | [], _, m, hm => by cases hm
  | x :: xs, h, m, hm => by
    rw [toJsonArr] at hm
    rcases List.mem_cons.1 hm with rfl | hm1
    · exact validMessageB_toJson (h x (by simp))
    · exact toJsonArr_all_valid (fun m hmem => h m (by simp [hmem])) m hm1

/-- Behavior of `validateB` on a truthy row whose `messages` is a non-empty array:
the result is the message-by-message error list with its emptiness as
the `valid` flag. -/
theorem validateB_of_messages {row : Value} {xs : List Value}
    (ht : truthy row = true) (hm : getProp row "messages" = vArr xs)
    (hlen : ¬ xs.length = 0) :
    validateB row = ⟨(messageErrorsP xs 0).isEmpty, messageErrorsP xs 0⟩ := by
  rw [validateB, if_neg (by simp [ht]), hm]
  show (if xs.length = 0 then (⟨false, [emptyError]⟩ : ValidationResult)
        else ⟨(messageErrorsP xs 0).isEmpty, messageErrorsP xs 0⟩) = _
  rw [if_neg hlen]

/-! Section: the claims. -/

/-- C1, counterexample: the claim says all eight operations return
normally on arbitrary input, `null` included.  In fact every accessor
that dereferences its argument throws a `TypeError` on `null`:
`row.evaluation_result`, `row.messages` and `row.input_metadata` are
unguarded property reads. -/
theorem c1_counterexample :
    isTrajectoryEvaluation vNull = .error .typeError ∧
    getAssistantMessages vNull = .error .typeError ∧
    getUserMessages vNull = .error .typeError ∧
    getConversationLength vNull = .error .typeError ∧
    getInputMetadata vNull "model" vUndefined = .error .typeError :=
  ⟨rfl, rfl, rfl, rfl, rfl⟩

/-- C1, amended: `validateEvaluationRow` and `isEvaluationRow` return
normally on every input (`createEvaluationRow` is total by its very
type: its only property reads are optional-chained), while the five
accessors return normally on every well-typed `EvaluationRow` — they
throw only on values outside the declared TypeScript type, such as
`null` or `undefined`. -/
theorem c1_totality :
    (∀ v, ∃ r, validateEvaluationRow v = .ok r) ∧
    (∀ v, ∃ r, isEvaluationRow v = .ok r) ∧
    (∀ row, WellTypedRow row = true →
      (∃ b, isTrajectoryEvaluation row = .ok b) ∧
      (∃ ms, getAssistantMessages row = .ok ms) ∧
      (∃ ms, getUserMessages row = .ok ms) ∧
      (∃ n, getConversationLength row = .ok n) ∧
      (∀ key d, ∃ r, getInputMetadata row key d = .ok r)) := by
  refine ⟨fun v => ⟨_, validateEvaluationRow_eq v⟩,
    fun v => ⟨_, isEvaluationRow_eq v⟩, fun row h => ?_⟩
  obtain ⟨b, hb, -⟩ := isTrajectoryEvaluation_spec h
  obtain ⟨xs, -, ha, hu⟩ := messagesByRole_spec h
  obtain ⟨ys, -, hc⟩ := getConversationLength_spec h
  obtain ⟨fs, -, rfl, -, -⟩ := wt_row_dest h
  exact ⟨⟨b, hb⟩, ⟨_, ha⟩, ⟨_, hu⟩, ⟨_, hc⟩,
    fun key d => ⟨_, getInputMetadata_eq key d rfl⟩⟩

/-- C1, witness: the amended statement applied to a concrete well-typed
one-message row. -/
theorem c1_totality_witness :
    WellTypedRow (vObj [("messages", vArr [vObj [("role", vStr "user")]])]) = true ∧
    ((∃ b, isTrajectoryEvaluation
        (vObj [("messages", vArr [vObj [("role", vStr "user")]])]) = .ok b) ∧
      (∃ ms, getAssistantMessages
        (vObj [("messages", vArr [vObj [("role", vStr "user")]])]) = .ok ms) ∧
      (∃ ms, getUserMessages
        (vObj [("messages", vArr [vObj [("role", vStr "user")]])]) = .ok ms) ∧
      (∃ n, getConversationLength
        (vObj [("messages", vArr [vObj [("role", vStr "user")]])]) = .ok n) ∧
      (∀ key d, ∃ r, getInputMetadata
        (vObj [("messages", vArr [vObj [("role", vStr "user")]])]) key d = .ok r)) :=
  ⟨rfl, c1_totality.2.2 (vObj [("messages", vArr [vObj [("role", vStr "user")]])]) rfl⟩

/-- C2, counterexample: `{messages: []}` passes `isEvaluationRow` (an
empty array vacuously satisfies `every`) yet `validateEvaluationRow`
rejects it with `"messages array cannot be empty"`, so what the type
guard accepts does not validate with zero errors. -/
theorem c2_counterexample :
    isEvaluationRow (vObj [("messages", vArr [])]) = .ok (vBool true) ∧
    validateEvaluationRow (vObj [("messages", vArr [])]) =
      .ok ⟨false, [emptyError]⟩ ∧
    ¬ validateEvaluationRow (vObj [("messages", vArr [])]) = .ok ⟨true, []⟩ := by
  refine ⟨rfl, rfl, fun hcontra => ?_⟩
  have h2 : (Except.ok (⟨false, [emptyError]⟩ : ValidationResult) :
      Except JsError ValidationResult) = .ok ⟨true, []⟩ := by
    rw [← hcontra]
    rfl
  injection h2 with h3
  exact absurd h3 (by decide)

/-- C2, amended: anything `isEvaluationRow` accepts validates with zero
errors *provided its `messages` array is non-empty* — on an empty
`messages` the guard accepts while the validator reports exactly
`"messages array cannot be empty"`; conversely anything that validates
with zero errors at all is accepted by `isEvaluationRow`. -/
theorem c2_consistency :
    (∀ v, isEvaluationRow v = .ok (vBool true) →
      ∃ xs, getProp v "messages" = vArr xs ∧
        (xs = [] → validateEvaluationRow v = .ok ⟨false, [emptyError]⟩) ∧
        (xs ≠ [] → validateEvaluationRow v = .ok ⟨true, []⟩)) ∧
    (∀ v r, validateEvaluationRow v = .ok r → r.errors = [] →
      isEvaluationRow v = .ok (vBool true)) := by
  constructor
  · intro v hv
    rw [isEvaluationRow_eq v] at hv
    injection hv with hv
    by_cases ht : truthy v = true
    · rw [isEvaluationRowB, if_neg (by simp [ht])] at hv
      by_cases hobj : typeofV v = "object"
      · rw [if_neg (by simp [hobj])] at hv
        cases hm : getProp v "messages" with
        | vArr xs =>
          simp only [hm] at hv
          injection hv with hall
          refine ⟨xs, rfl, ?_, ?_⟩
          · rintro rfl
            simp [validateEvaluationRow_eq, validateB, ht, hm]
          · intro hne
            have hlen : ¬ xs.length = 0 := by
              simpa [List.length_eq_zero] using hne
            have herrs : messageErrorsP xs 0 = [] :=
              (messageErrorsP_eq_nil_iff xs 0).2 hall
            simp [validateEvaluationRow_eq, validateB, ht, hm, hlen, herrs]
        | vNull => simp only [hm] at hv; exact absurd hv (by simp)
        | vUndefined => simp only [hm] at hv; exact absurd hv (by simp)
        | vBool b => simp only [hm] at hv; exact absurd hv (by simp)
        | vNum n => simp only [hm] at hv; exact absurd hv (by simp)
        | vNaN => simp only [hm] at hv; exact absurd hv (by simp)
        | vStr s => simp only [hm] at hv; exact absurd hv (by simp)
        | vObj gs => simp only [hm] at hv; exact absurd hv (by simp)
      · rw [if_pos (by simp [hobj])] at hv
        injection hv with hv
        cases hv
    · rw [isEvaluationRowB, if_pos (by simp [ht])] at hv
      rw [hv] at ht
      exact absurd rfl ht
  · intro v r hr herr
    rw [validateEvaluationRow_eq v] at hr
    injection hr with hr
    subst hr
    rw [validateB] at herr
    by_cases ht : truthy v = true
    · rw [if_neg (by simp [ht])] at herr
      cases hm : getProp v "messages" with
      | vArr xs =>
        simp only [hm] at herr
        by_cases hlen : xs.length = 0
        · rw [if_pos hlen] at herr
          exact absurd herr (by simp)
        · rw [if_neg hlen] at herr
          have herr2 : messageErrorsP xs 0 = [] := herr
          have hall : xs.all validMessageB = true :=
            (messageErrorsP_eq_nil_iff xs 0).1 herr2
          obtain ⟨fs, rfl, -⟩ := eq_vObj_of_getProp_messages_arr hm
          rw [isEvaluationRow_eq]
          simp [isEvaluationRowB, truthy, typeofV, hm, hall]
      | vNull => simp only [hm] at herr; exact absurd herr (by simp)
      | vUndefined => simp only [hm] at herr; exact absurd herr (by simp)
      | vBool b => simp only [hm] at herr; exact absurd herr (by simp)
      | vNum n => simp only [hm] at herr; exact absurd herr (by simp)
      | vNaN => simp only [hm] at herr; exact absurd herr (by simp)
      | vStr s => simp only [hm] at herr; exact absurd herr (by simp)
      | vObj gs => simp only [hm] at herr; exact absurd herr (by simp)
    · rw [if_pos (by simp [ht])] at herr
      cases herr

/-- C2, witness: the amended statement at a one-message row, in both
directions. -/
theorem c2_consistency_witness :
    isEvaluationRow (vObj [("messages", vArr [vObj [("role", vStr "user")]])]) =
      .ok (vBool true) ∧
    (∃ xs, getProp (vObj [("messages", vArr [vObj [("role", vStr "user")]])])
        "messages" = vArr xs ∧
      (xs = [] → validateEvaluationRow
        (vObj [("messages", vArr [vObj [("role", vStr "user")]])]) =
          .ok ⟨false, [emptyError]⟩) ∧
      (xs ≠ [] → validateEvaluationRow
        (vObj [("messages", vArr [vObj [("role", vStr "user")]])]) =
          .ok ⟨true, []⟩)) ∧
    isEvaluationRow (vObj [("messages", vArr [vObj [("role", vStr "tool")]])]) =
      .ok (vBool true) :=
  ⟨rfl, c2_consistency.1 _ rfl,
    c2_consistency.2 (vObj [("messages", vArr [vObj [("role", vStr "tool")]])])
      ⟨true, []⟩ rfl rfl⟩

/-- C3, counterexample: `createEvaluationRow(messages)` with no options
does *not* leave `tools`, `input_metadata`, `ground_truth` and
`evaluation_result` absent: the object literal puts all four keys on the
row, each holding the `undefined` sentinel (`options?.tools` and friends
evaluate to `undefined`). -/
theorem c3_counterexample :
    hasOwnKey (createEvaluationRow (vArr [vObj [("role", vStr "user")]])
      vUndefined) "tools" = true ∧
    hasOwnKey (createEvaluationRow (vArr [vObj [("role", vStr "user")]])
      vUndefined) "input_metadata" = true ∧
    hasOwnKey (createEvaluationRow (vArr [vObj [("role", vStr "user")]])
      vUndefined) "ground_truth" = true ∧
    hasOwnKey (createEvaluationRow (vArr [vObj [("role", vStr "user")]])
      vUndefined) "evaluation_result" = true ∧
    getProp (createEvaluationRow (vArr [vObj [("role", vStr "user")]])
      vUndefined) "tools" = vUndefined :=
  ⟨rfl, rfl, rfl, rfl, rfl⟩

/-- C3, amended: with no options, `createEvaluationRow` copies
`messages` verbatim and sets each of the four option-backed fields to
the `undefined` sentinel — the keys are present on the object, but each
reads back as `undefined` (indistinguishable from absent to every
accessor in the module) and all four are dropped by JSON
serialization. -/
theorem c3_createEvaluationRow (msgs : List Value) :
    createEvaluationRow (vArr msgs) vUndefined =
      vObj [("messages", vArr msgs), ("tools", vUndefined),
            ("input_metadata", vUndefined), ("ground_truth", vUndefined),
            ("evaluation_result", vUndefined)] ∧
    getProp (createEvaluationRow (vArr msgs) vUndefined) "messages" = vArr msgs ∧
    getProp (createEvaluationRow (vArr msgs) vUndefined) "tools" = vUndefined ∧
    getProp (createEvaluationRow (vArr msgs) vUndefined) "input_metadata" =
      vUndefined ∧
    getProp (createEvaluationRow (vArr msgs) vUndefined) "ground_truth" =
      vUndefined ∧
    getProp (createEvaluationRow (vArr msgs) vUndefined) "evaluation_result" =
      vUndefined ∧
    toJsonValue (createEvaluationRow (vArr msgs) vUndefined) =
      some (vObj [("messages", vArr (toJsonArr msgs))]) :=
  ⟨rfl, rfl, rfl, rfl, rfl, rfl, rfl⟩

/-- C4, counterexample: when `input_metadata` contains the key but maps
it to `null`, the claim demands the stored value (`null`) back, yet
`?? defaultValue` coalesces the stored nullish value into the default:
the function returns `"unknown"`, not `null`. -/
theorem c4_counterexample :
    ([("model", vNull)] : List (String × Value)).lookup "model" = some vNull ∧
    getInputMetadata (vObj [("input_metadata", vObj [("model", vNull)])])
      "model" (vStr "unknown") = .ok (vStr "unknown") ∧
    (vStr "unknown" : Value) ≠ vNull :=
  ⟨rfl, rfl, fun hcontra => Value.noConfusion hcontra⟩

/-- C4, amended: on any non-nullish row, `getInputMetadata` does a
single-level key lookup into `input_metadata`: it returns the stored
value when the mapping is present, contains the key and the stored
value is not nullish; it returns `defaultValue` when `input_metadata`
is absent, when the key is missing, and also — beyond the original
claim — when the stored value is `null` or `undefined` (which `??`
treats as absent). -/
theorem c4_getInputMetadata (row : Value) (key : String) (defaultValue : Value)
    (h : isNullish row = false) :
    (∀ im v, getProp row "input_metadata" = vObj im → im.lookup key = some v →
      isNullish v = false →
      getInputMetadata row key defaultValue = .ok v) ∧
    (∀ im, getProp row "input_metadata" = vObj im → im.lookup key = none →
      getInputMetadata row key defaultValue = .ok defaultValue) ∧
    (∀ im v, getProp row "input_metadata" = vObj im → im.lookup key = some v →
      isNullish v = true →
      getInputMetadata row key defaultValue = .ok defaultValue) ∧
    (isNullish (getProp row "input_metadata") = true →
      getInputMetadata row key defaultValue = .ok defaultValue) := by
  have base := getInputMetadata_eq key defaultValue h
  refine ⟨fun im v him hlk hv => ?_, fun im him hlk => ?_,
    fun im v him hlk hv => ?_, fun hnl => ?_⟩
  · rw [base, him]
    simp [optChain, getProp, hlk, hv, show isNullish (vObj im) = false from rfl]
  · rw [base, him]
    simp [optChain, getProp, hlk, show isNullish (vObj im) = false from rfl,
      show isNullish vUndefined = true from rfl]
  · rw [base, him]
    simp [optChain, getProp, hlk, hv, show isNullish (vObj im) = false from rfl]
  · rw [base, optChain, if_pos hnl]; rfl

/-- C4, witness: the spec's own example — `"model"` resolves to
`"gpt-4"` when stored, and to the supplied `"unknown"` default when
`input_metadata` is absent. -/
theorem c4_getInputMetadata_witness :
    getInputMetadata (vObj [("input_metadata", vObj [("model", vStr "gpt-4")])])
      "model" (vStr "unknown") = .ok (vStr "gpt-4") ∧
    getInputMetadata (vObj []) "model" (vStr "unknown") = .ok (vStr "unknown") :=
  ⟨(c4_getInputMetadata (vObj [("input_metadata", vObj [("model", vStr "gpt-4")])])
      "model" (vStr "unknown") rfl).1 [("model", vStr "gpt-4")] (vStr "gpt-4")
      rfl rfl rfl,
    (c4_getInputMetadata (vObj []) "model" (vStr "unknown") rfl).2.2.2 rfl⟩

/-- C5: on every well-typed row, `isTrajectoryEvaluation` returns
normally, and returns `true` exactly when `evaluation_result` is
present, its `step_outputs` field is present, and that array has length
greater than zero; in every other well-typed case it returns `false`. -/
theorem c5_isTrajectoryEvaluation {row : Value} (h : WellTypedRow row = true) :
    ∃ b, isTrajectoryEvaluation row = .ok b ∧
      (b = true ↔ ∃ er xs, presentField row "evaluation_result" = some er ∧
        presentField er "step_outputs" = some (vArr xs) ∧ 0 < xs.length) :=
  isTrajectoryEvaluation_spec h

/-- C5, witness: the spec's trajectory example (two step outputs)
classifies as a trajectory evaluation, and its per-turn example (no
`step_outputs`) does not. -/
theorem c5_isTrajectoryEvaluation_witness :
    WellTypedRow (vObj [("messages", vArr [vObj [("role", vStr "user")]]),
      ("evaluation_result", vObj [("score", vNum 1),
        ("step_outputs", vArr [
          vObj [("step_index", vNum 0), ("base_reward", vNum 0)],
          vObj [("step_index", vNum 1), ("base_reward", vNum 1),
                ("terminated", vBool true)]])])]) = true ∧
    (∃ b, isTrajectoryEvaluation
        (vObj [("messages", vArr [vObj [("role", vStr "user")]]),
          ("evaluation_result", vObj [("score", vNum 1),
            ("step_outputs", vArr [
              vObj [("step_index", vNum 0), ("base_reward", vNum 0)],
              vObj [("step_index", vNum 1), ("base_reward", vNum 1),
                    ("terminated", vBool true)]])])]) = .ok b ∧
      (b = true ↔ ∃ er xs, presentField
          (vObj [("messages", vArr [vObj [("role", vStr "user")]]),
            ("evaluation_result", vObj [("score", vNum 1),
              ("step_outputs", vArr [
                vObj [("step_index", vNum 0), ("base_reward", vNum 0)],
                vObj [("step_index", vNum 1), ("base_reward", vNum 1),
                      ("terminated", vBool true)]])])])
          "evaluation_result" = some er ∧
        presentField er "step_outputs" = some (vArr xs) ∧ 0 < xs.length)) ∧
    isTrajectoryEvaluation (vObj [("messages", vArr [vObj [("role", vStr "user")]]),
      ("evaluation_result", vObj [("score", vNum 1),
        ("step_outputs", vArr [
          vObj [("step_index", vNum 0), ("base_reward", vNum 0)],
          vObj [("step_index", vNum 1), ("base_reward", vNum 1),
                ("terminated", vBool true)]])])]) = .ok true ∧
    isTrajectoryEvaluation (vObj [("messages", vArr [vObj [("role", vStr "user")]]),
      ("evaluation_result", vObj [("score", vNum 1),
        ("reason", vStr "Correct")])]) = .ok false :=
  ⟨rfl, c5_isTrajectoryEvaluation rfl, rfl, rfl⟩

/-- C6: on every row whose `messages` is a non-empty array, the
validator inspects every index without short-circuiting: the error list
is the concatenation, in ascending index order, of each message's own
contribution (`messages[i] must be an object` for a non-object,
`messages[i].role must be a string` for an object without a string
role), and the `valid` flag is exactly the emptiness of that list. -/
theorem c6_validate_per_message {row : Value} {xs : List Value}
    (ht : truthy row = true) (hm : getProp row "messages" = vArr xs)
    (hne : xs ≠ []) :
    validateEvaluationRow row =
      .ok ⟨(xs.enum.flatMap fun p => messageErrorAt p.1 p.2).isEmpty,
           xs.enum.flatMap fun p => messageErrorAt p.1 p.2⟩ := by
  have hlen : ¬ xs.length = 0 := by simpa [List.length_eq_zero] using hne
  rw [validateEvaluationRow_eq row, validateB_of_messages ht hm hlen,
    messageErrorsP_eq_flatMap]
  rfl

/-- C6, witness: a three-message row whose first message is `null` and
whose second carries a numeric role produces exactly the two expected
errors, in index order, with `valid = false`. -/
theorem c6_validate_per_message_witness :
    validateEvaluationRow (vObj [("messages",
        vArr [vNull, vObj [("role", vNum 1)], vObj [("role", vStr "user")]])]) =
      .ok ⟨([vNull, vObj [("role", vNum 1)], vObj [("role", vStr "user")]].enum.flatMap
              fun p => messageErrorAt p.1 p.2).isEmpty,
           [vNull, vObj [("role", vNum 1)], vObj [("role", vStr "user")]].enum.flatMap
              fun p => messageErrorAt p.1 p.2⟩ ∧
    ([vNull, vObj [("role", vNum 1)], vObj [("role", vStr "user")]].enum.flatMap
        fun p => messageErrorAt p.1 p.2) =
      [mustBeObjectError 0, roleMustBeStringError 1] :=
  ⟨c6_validate_per_message rfl rfl (by simp), rfl⟩

/-- C7: the three degenerate shapes produce exactly the documented
single-error reports (and `undefined` behaves like `null`): `null` gives
`"EvaluationRow is null or undefined"` alone, `{}` gives
`"messages field is required and must be an array"`, and
`{messages: []}` gives exactly `["messages array cannot be empty"]`. -/
theorem c7_validate_degenerate :
    validateEvaluationRow vNull = .ok ⟨false, [nullError]⟩ ∧
    validateEvaluationRow vUndefined = .ok ⟨false, [nullError]⟩ ∧
    validateEvaluationRow (vObj []) = .ok ⟨false, [requiredError]⟩ ∧
    validateEvaluationRow (vObj [("messages", vArr [])]) =
      .ok ⟨false, [emptyError]⟩ :=
  ⟨rfl, rfl, rfl, rfl⟩

/-- C8: on every well-typed row, `getAssistantMessages` returns exactly
the messages whose `role` is `"assistant"`, `getUserMessages` exactly
those whose `role` is `"user"`, each as a fresh `List.filter` of the
original (hence in original relative order), and the two results share
no element.  The translation is pure, so neither call can mutate the
row. -/
theorem c8_role_filters {row : Value} (h : WellTypedRow row = true) :
    ∃ xs, getProp row "messages" = vArr xs ∧
      getAssistantMessages row =
        .ok (xs.filter fun m => strictEqStr (getProp m "role") "assistant") ∧
      getUserMessages row =
        .ok (xs.filter fun m => strictEqStr (getProp m "role") "user") ∧
      ∀ m ∈ xs.filter (fun m => strictEqStr (getProp m "role") "assistant"),
        m ∉ xs.filter fun m => strictEqStr (getProp m "role") "user" := by
  obtain ⟨xs, h1, h2, h3⟩ := messagesByRole_spec h
  exact ⟨xs, h1, h2, h3, fun m hmem => filter_roles_disjoint xs hmem⟩

/-- C8, witness: on `[user, assistant, user, assistant]` each filter
returns its two matches in order. -/
theorem c8_role_filters_witness :
    WellTypedRow (vObj [("messages", vArr
      [vObj [("role", vStr "user"), ("content", vStr "q1")],
       vObj [("role", vStr "assistant"), ("content", vStr "a1")],
       vObj [("role", vStr "user"), ("content", vStr "q2")],
       vObj [("role", vStr "assistant"), ("content", vStr "a2")]])]) = true ∧
    (∃ xs, getProp (vObj [("messages", vArr
        [vObj [("role", vStr "user"), ("content", vStr "q1")],
         vObj [("role", vStr "assistant"), ("content", vStr "a1")],
         vObj [("role", vStr "user"), ("content", vStr "q2")],
         vObj [("role", vStr "assistant"), ("content", vStr "a2")]])])
        "messages" = vArr xs ∧
      getAssistantMessages (vObj [("messages", vArr
        [vObj [("role", vStr "user"), ("content", vStr "q1")],
         vObj [("role", vStr "assistant"), ("content", vStr "a1")],
         vObj [("role", vStr "user"), ("content", vStr "q2")],
         vObj [("role", vStr "assistant"), ("content", vStr "a2")]])]) =
        .ok (xs.filter fun m => strictEqStr (getProp m "role") "assistant") ∧
      getUserMessages (vObj [("messages", vArr
        [vObj [("role", vStr "user"), ("content", vStr "q1")],
         vObj [("role", vStr "assistant"), ("content", vStr "a1")],
         vObj [("role", vStr "user"), ("content", vStr "q2")],
         vObj [("role", vStr "assistant"), ("content", vStr "a2")]])]) =
        .ok (xs.filter fun m => strictEqStr (getProp m "role") "user") ∧
      ∀ m ∈ xs.filter (fun m => strictEqStr (getProp m "role") "assistant"),
        m ∉ xs.filter fun m => strictEqStr (getProp m "role") "user") ∧
    getAssistantMessages (vObj [("messages", vArr
      [vObj [("role", vStr "user"), ("content", vStr "q1")],
       vObj [("role", vStr "assistant"), ("content", vStr "a1")],
       vObj [("role", vStr "user"), ("content", vStr "q2")],
       vObj [("role", vStr "assistant"), ("content", vStr "a2")]])]) =
      .ok [vObj [("role", vStr "assistant"), ("content", vStr "a1")],
           vObj [("role", vStr "assistant"), ("content", vStr "a2")]] ∧
    getUserMessages (vObj [("messages", vArr
      [vObj [("role", vStr "user"), ("content", vStr "q1")],
       vObj [("role", vStr "assistant"), ("content", vStr "a1")],
       vObj [("role", vStr "user"), ("content", vStr "q2")],
       vObj [("role", vStr "assistant"), ("content", vStr "a2")]])]) =
      .ok [vObj [("role", vStr "user"), ("content", vStr "q1")],
           vObj [("role", vStr "user"), ("content", vStr "q2")]] :=
  ⟨rfl, c8_role_filters rfl, rfl, rfl⟩

/-- C9: a row that validates cleanly still validates cleanly — with the
identical (empty) error list — after a JSON round trip.  `undefined`
properties are dropped and `NaN` becomes `null` on the way, neither of
which the validator looks at. -/
theorem c9_json_roundtrip {row : Value} {r : ValidationResult}
    (h : validateEvaluationRow row = .ok r) (hv : r.valid = true) :
    ∃ j, toJsonValue row = some j ∧
      ∃ r2, validateEvaluationRow j = .ok r2 ∧ r2.errors = r.errors := by
  rw [validateEvaluationRow_eq row] at h
  injection h with h
  subst h
  rw [validateB] at hv
  by_cases ht : truthy row = true
  case neg =>
    rw [if_pos (by simp [ht])] at hv
    exact absurd hv (by simp)
  case pos =>
    rw [if_neg (by simp [ht])] at hv
    cases hm : getProp row "messages" with
    | vArr xs =>
      simp only [hm] at hv
      by_cases hlen : xs.length = 0
      · rw [if_pos hlen] at hv
        exact absurd hv (by simp)
      · rw [if_neg hlen] at hv
        have herr : messageErrorsP xs 0 = [] := by
          simpa [List.isEmpty_iff] using hv
        have hall : xs.all validMessageB = true :=
          (messageErrorsP_eq_nil_iff xs 0).1 herr
        obtain ⟨fs, rfl, hlk⟩ := eq_vObj_of_getProp_messages_arr hm
        have hlk2 : (toJsonObj fs).lookup "messages" =
            some (vArr (toJsonArr xs)) := lookup_toJsonObj fs hlk rfl
        have hget2 : getProp (vObj (toJsonObj fs)) "messages" =
            vArr (toJsonArr xs) := by simp [getProp, hlk2]
        have hall2 : (toJsonArr xs).all validMessageB = true := by
          rw [List.all_eq_true]
          exact toJsonArr_all_valid (by simpa [List.all_eq_true] using hall)
        have herr2 : messageErrorsP (toJsonArr xs) 0 = [] :=
          (messageErrorsP_eq_nil_iff _ 0).2 hall2
        have hlen2 : ¬ (toJsonArr xs).length = 0 := by
          rw [toJsonArr_length]; exact hlen
        have htj : truthy (vObj (toJsonObj fs)) = true := rfl
        refine ⟨vObj (toJsonObj fs), rfl, ⟨true, []⟩, ?_, ?_⟩
        · rw [validateEvaluationRow_eq,
            validateB_of_messages htj hget2 hlen2, herr2]
          rfl
        · rw [validateB_of_messages ht hm hlen, herr]
    | vNull => simp only [hm] at hv; exact absurd hv (by simp)
    | vUndefined => simp only [hm] at hv; exact absurd hv (by simp)
    | vBool b => simp only [hm] at hv; exact absurd hv (by simp)
    | vNum n => simp only [hm] at hv; exact absurd hv (by simp)
    | vNaN => simp only [hm] at hv; exact absurd hv (by simp)
    | vStr s => simp only [hm] at hv; exact absurd hv (by simp)
    | vObj gs => simp only [hm] at hv; exact absurd hv (by simp)

/-- C9, witness: a valid two-message row (with an `undefined`-valued
property that serialization drops) round-trips to a value with the
identical empty error list. -/
theorem c9_json_roundtrip_witness :
    validateEvaluationRow (vObj [("messages", vArr
      [vObj [("role", vStr "user"), ("content", vStr "hi")],
       vObj [("role", vStr "assistant"), ("tool_calls", vUndefined)]])]) =
      .ok ⟨true, []⟩ ∧
    (∃ j, toJsonValue (vObj [("messages", vArr
        [vObj [("role", vStr "user"), ("content", vStr "hi")],
         vObj [("role", vStr "assistant"), ("tool_calls", vUndefined)]])]) =
        some j ∧
      ∃ r2, validateEvaluationRow j = .ok r2 ∧
        r2.errors = (⟨true, []⟩ : ValidationResult).errors) :=
  ⟨rfl, c9_json_roundtrip rfl rfl⟩

/-- C10: every falsy value — `0`, `""`, `false` and `NaN` included — is
caught by the `!row` guard, so it is reported as the null/absent case,
not as a missing `messages` field. -/
theorem c10_falsy {v : Value} (hf : truthy v = false) (_h1 : v ≠ vNull)
    (_h2 : v ≠ vUndefined) :
    validateEvaluationRow v = .ok ⟨false, [nullError]⟩ := by
  rw [validateEvaluationRow, if_pos (by simp [hf])]
  rfl

/-- C10, witness: the four falsy non-nullish shapes named by the claim
all produce the null/undefined report. -/
theorem c10_falsy_witness :
    (truthy (vNum 0) = false ∧
      validateEvaluationRow (vNum 0) = .ok ⟨false, [nullError]⟩) ∧
    (truthy (vStr "") = false ∧
      validateEvaluationRow (vStr "") = .ok ⟨false, [nullError]⟩) ∧
    (truthy (vBool false) = false ∧
      validateEvaluationRow (vBool false) = .ok ⟨false, [nullError]⟩) ∧
    (truthy vNaN = false ∧
      validateEvaluationRow vNaN = .ok ⟨false, [nullError]⟩) :=
  ⟨⟨rfl, c10_falsy rfl (fun hh => Value.noConfusion hh)
      (fun hh => Value.noConfusion hh)⟩,
   ⟨rfl, c10_falsy rfl (fun hh => Value.noConfusion hh)
      (fun hh => Value.noConfusion hh)⟩,
   ⟨rfl, c10_falsy rfl (fun hh => Value.noConfusion hh)
      (fun hh => Value.noConfusion hh)⟩,
   ⟨rfl, c10_falsy rfl (fun hh => Value.noConfusion hh)
      (fun hh => Value.noConfusion hh)⟩⟩

end EvalProtocol
